import Mathlib

/-!
Verification of the waker-install protocol and peripheral completion state
machines of an interrupt-to-future bridge crate (src/lib.rs, src/exti.rs,
src/serial.rs, src/timer.rs).

The embedding is shallow: each Rust function or macro body is translated to a
Lean function over explicit state; the single source of true concurrency (an
ISR preempting the polling task at any instruction boundary) is modelled as a
small-step transition system whose labels interleave the six micro-steps of
the install critical section with hardware-event arrivals and ISR firings.
-/

set_option maxHeartbeats 1000000

namespace AsyncStm32

/-! ## NVIC / waker-slot model (src/lib.rs lines 40-66, src/exti.rs lines 35-49)

A vector has a mask bit and a pending latch.  The peripheral event source is
level-held: once the hardware event has occurred, the peripheral keeps
asserting the interrupt line (`flag`) until the polling task clears it, so the
NVIC pending latch re-asserts right after `unpend` or ISR entry while `flag`
is still set.  The waker slot holds zero or one continuation handle (a `Nat`
identifier stands in for `core::task::Waker`). -/

structure NvicState where
  /-- program counter of the install critical section: 0 = before `NVIC::mask`,
  6 = install finished (after `NVIC::unmask`). -/
  pc : Nat
  /-- vector mask bit: `true` means the vector cannot fire. -/
  masked : Bool
  /-- NVIC pending latch for the vector. -/
  pending : Bool
  /-- the peripheral's level-held event line (set by the hardware event,
  cleared only by the task's ready-branch, outside this cycle). -/
  flag : Bool
  /-- the waker slot `static mut WAKER : Option<Waker>`. -/
  slot : Option Nat
  /-- continuations resumed so far, in order (`waker.wake_by_ref()` calls). -/
  resumes : List Nat
deriving DecidableEq, Repr

/-- The six statements of the `waker_interrupt!` install sequence
(src/lib.rs lines 57-64) and of `install_multi_interrupt_waker!`
(src/exti.rs lines 40-47), in source order. -/
inductive Action where
  | mask
  | fenceAcquire
  | storeWaker
  | unpend
  | fenceRelease
  | unmask
deriving DecidableEq, Repr

/-- State effect of each install statement.  `compiler_fence` constrains
reordering only, so it is the identity on architectural state.  `NVIC::unpend`
clears the pending latch, but a still-asserted level source immediately
re-latches it, hence `pending := flag`. -/
def actionEffect (w : Nat) : Action → NvicState → NvicState
  | .mask, s => { s with masked := true }
  | .fenceAcquire, s => s
  | .storeWaker, s => { s with slot := some w }
  | .unpend, s => { s with pending := s.flag }
  | .fenceRelease, s => s
  | .unmask, s => { s with masked := false }

/-- The install sequence in source order, transcribed from
src/lib.rs lines 57-64: `NVIC::mask`; `compiler_fence(Acquire)`;
`WAKER = Some(waker)`; `NVIC::unpend`; `compiler_fence(Release)`;
`NVIC::unmask`. -/
def installActions : List Action :=
  [.mask, .fenceAcquire, .storeWaker, .unpend, .fenceRelease, .unmask]

/-- Effect of the install micro-step at program counter `pc`. -/
def installEffect (w pc : Nat) (s : NvicState) : NvicState :=
  actionEffect w (installActions.getD pc .fenceRelease) s

/-- The ISR body generated by `waker_interrupt!` (src/lib.rs lines 47-55):
if the slot is occupied, wake the continuation and mask the vector; an empty
slot leaves the state untouched (the mask call sits inside the `if let`). -/
def waker_isr (s : NvicState) : NvicState :=
  match s.slot with
  | some w => { s with resumes := s.resumes ++ [w], masked := true }
  | none => s

/-- Interleaving labels: one install micro-step, a hardware event arrival, or
an ISR firing. -/
inductive Label where
  | installStep
  | hwEvent
  | isrFire
deriving DecidableEq, Repr

/-- Small-step transition relation (deterministic per label; `none` when the
label is not enabled).  The ISR can fire only while the vector is unmasked and
pending; entry auto-clears the pending latch, which immediately re-latches
while the level source is still asserted (`pending := flag`). -/
def step (w : Nat) (s : NvicState) : Label → Option NvicState
  | .installStep =>
      if s.pc < 6 then some { installEffect w s.pc s with pc := s.pc + 1 } else none
  | .hwEvent => some { s with flag := true, pending := true }
  | .isrFire =>
      if !s.masked && s.pending then
        some (waker_isr { s with pending := s.flag })
      else none

/-- Run a trace of labels from a state. -/
def run (w : Nat) (s : NvicState) : List Label → Option NvicState
  | [] => some s
  | l :: ls =>
      match step w s l with
      | some s1 => run w s1 ls
      | none => none

/-- Start of an install cycle: the vector is masked (the previous ISR firing
masked it, or NVIC reset state before the first cycle), the hardware event of
this cycle has not occurred yet, the slot holds a stale already-consumed
continuation (or nothing), and the pending latch is arbitrary. -/
def initState (b0 : Bool) (old : Option Nat) : NvicState :=
  { pc := 0, masked := true, pending := b0, flag := false, slot := old, resumes := [] }

/-- Inductive invariant of the install-cycle transition system. -/
def Inv (b0 : Bool) (old : Option Nat) (w : Nat) (s : NvicState) : Prop :=
  s.pc ≤ 6
  ∧ (s.masked = false → s.pc = 6 ∧ s.resumes = [])
  ∧ s.slot = (if 3 ≤ s.pc then some w else old)
  ∧ (4 ≤ s.pc → s.pending = s.flag)
  ∧ (s.pc < 4 → s.pending = (b0 || s.flag))
  ∧ (s.resumes = [] ∨ (s.resumes = [w] ∧ s.pc = 6 ∧ s.masked = true ∧ s.flag = true))
  ∧ (s.pc = 6 → s.resumes = [] → s.masked = false)

theorem init_inv (b0 : Bool) (old : Option Nat) (w : Nat) :
    Inv b0 old w (initState b0 old) := by
  simp [Inv, initState]

theorem step_inv {b0 : Bool} {old : Option Nat} {w : Nat} {s s1 : NvicState} {l : Label}
    (hInv : Inv b0 old w s) (hstep : step w s l = some s1) : Inv b0 old w s1 := by
  obtain ⟨h1, h2, h3, h4, h5, h6, h7⟩ := hInv
  cases l with
  | installStep =>
      simp only [step] at hstep
      split at hstep
      · rename_i hlt
        obtain ⟨pc, masked, pending, flag, slot, resumes⟩ := s
        simp only at hlt h1 h2 h3 h4 h5 h6 h7
        injection hstep with hs1
        subst hs1
        interval_cases pc <;>
          simp_all [Inv, installEffect, installActions, actionEffect]
      · exact absurd hstep (by simp)
  | hwEvent =>
      simp only [step] at hstep
      injection hstep with hs1
      subst hs1
      refine ⟨h1, ?_, h3, by simp, by simp, ?_, ?_⟩
      · intro hm
        exact h2 hm
      · rcases h6 with h | ⟨ha, hb, hc, _⟩
        · exact Or.inl h
        · exact Or.inr ⟨ha, hb, hc, rfl⟩
      · intro hpc hres
        exact h7 hpc hres
  | isrFire =>
      simp only [step] at hstep
      split at hstep
      · rename_i hcond
        simp only [Bool.and_eq_true, Bool.not_eq_true'] at hcond
        obtain ⟨hm, hp⟩ := hcond
        obtain ⟨hpc6, hres⟩ := h2 hm
        have hslot : s.slot = some w := by
          rw [h3]
          simp [hpc6]
        have hflag : s.flag = true := by
          have := h4 (by omega)
          rw [this] at hp
          exact hp
        simp only [waker_isr, hslot] at hstep
        injection hstep with hs1
        subst hs1
        refine ⟨by simpa using h1, by simp, by simpa using hslot ▸ h3, ?_, ?_, ?_, ?_⟩
        · intro _
          simp
        · intro hlt
          have hlt2 : s.pc < 4 := hlt
          omega
        · right
          simp [hres, hpc6, hflag]
        · intro _ hcontra
          simp [hres] at hcontra
      · exact absurd hstep (by simp)

theorem run_inv {b0 : Bool} {old : Option Nat} {w : Nat} :
    ∀ (tr : List Label) (s s1 : NvicState),
      Inv b0 old w s → run w s tr = some s1 → Inv b0 old w s1 := by
  intro tr
  induction tr with
  | nil =>
      intro s s1 h hr
      simp only [run] at hr
      injection hr with hr
      subst hr
      exact h
  | cons l ls ih =>
      intro s s1 h hr
      simp only [run] at hr
      cases hstep : step w s l with
      | none => rw [hstep] at hr; exact absurd hr (by simp)
      | some s2 =>
          rw [hstep] at hr
          exact ih s2 s1 (step_inv h hstep) hr

/-- C1: in every interleaving of the install micro-steps with hardware-event
arrivals and ISR firings that completes the install and quiesces (no enabled
ISR firing remains), the installed continuation is resumed exactly once when
the hardware event occurred, and never otherwise — no lost wakeup, no
duplicate resume within the install cycle. -/
theorem install_cycle_exactly_one_resume (b0 : Bool) (old : Option Nat) (w : Nat)
    (tr : List Label) (s : NvicState)
    (hrun : run w (initState b0 old) tr = some s)
    (hdone : s.pc = 6)
    (hquiet : ¬(s.masked = false ∧ s.pending = true)) :
    s.resumes = (if s.flag then [w] else []) := by
  have hInv := run_inv tr _ s (init_inv b0 old w) hrun
  obtain ⟨_, _, _, h4, _, h6, h7⟩ := hInv
  have hpend : s.pending = s.flag := h4 (by omega)
  cases hflag : s.flag with
  | true =>
      rcases h6 with hres | ⟨hres, _, _, _⟩
      · exfalso
        exact hquiet ⟨h7 hdone hres, by rw [hpend, hflag]⟩
      · simp [hres]
  | false =>
      rcases h6 with hres | ⟨_, _, _, hfl⟩
      · simp [hres]
      · rw [hfl] at hflag
        exact absurd hflag (by simp)

/-- Witness for C1: the concrete trace "six install micro-steps, then the
hardware event, then the ISR firing" resumes continuation 7 exactly once. -/
theorem install_cycle_exactly_one_resume_witness :
    run 7 (initState false none)
        [.installStep, .installStep, .installStep, .installStep, .installStep,
         .installStep, .hwEvent, .isrFire]
      = some ⟨6, true, true, true, some 7, [7]⟩
    ∧ (⟨6, true, true, true, some 7, [7]⟩ : NvicState).pc = 6
    ∧ ¬((⟨6, true, true, true, some 7, [7]⟩ : NvicState).masked = false
        ∧ (⟨6, true, true, true, some 7, [7]⟩ : NvicState).pending = true)
    ∧ (⟨6, true, true, true, some 7, [7]⟩ : NvicState).resumes
        = (if (⟨6, true, true, true, some 7, [7]⟩ : NvicState).flag then [7] else []) :=
  ⟨by decide, by decide, by decide,
    install_cycle_exactly_one_resume false none 7
      [.installStep, .installStep, .installStep, .installStep, .installStep,
       .installStep, .hwEvent, .isrFire]
      ⟨6, true, true, true, some 7, [7]⟩ (by decide) (by decide) (by decide)⟩

/-! ## C2: order and per-step effect of the install critical section -/

/-- C2: every execution of the continuation-install operation performs exactly
mask, acquire fence, store (overwriting any previous slot value), unpend,
release fence, unmask, in this order; running the six statements in order
from any state ends with the vector unmasked, the slot overwritten with the
new continuation, and the pending latch equal to the level-held event line. -/
theorem install_performs_steps_in_order :
    installActions = [.mask, .fenceAcquire, .storeWaker, .unpend, .fenceRelease, .unmask]
    ∧ (∀ (w : Nat) (s : NvicState), actionEffect w .mask s = { s with masked := true })
    ∧ (∀ (w : Nat) (s : NvicState), actionEffect w .fenceAcquire s = s)
    ∧ (∀ (w : Nat) (s : NvicState), actionEffect w .storeWaker s = { s with slot := some w })
    ∧ (∀ (w : Nat) (s : NvicState), actionEffect w .unpend s = { s with pending := s.flag })
    ∧ (∀ (w : Nat) (s : NvicState), actionEffect w .fenceRelease s = s)
    ∧ (∀ (w : Nat) (s : NvicState), actionEffect w .unmask s = { s with masked := false })
    ∧ (∀ (w : Nat) (s : NvicState),
        installActions.foldl (fun t a => actionEffect w a t) s
          = { s with masked := false, slot := some w, pending := s.flag }) :=
  ⟨rfl, fun _ _ => rfl, fun _ _ => rfl, fun _ _ => rfl, fun _ _ => rfl,
    fun _ _ => rfl, fun _ _ => rfl, fun _ _ => rfl⟩

/-! ## C3: masking behaviour of the two ISR variants

`multi_interrupt!` (src/exti.rs lines 14-30) generates an ISR over a fixed
array of slots: it wakes every occupied slot and then masks the vector
unconditionally.  `waker_interrupt!` (src/lib.rs lines 47-55) masks only
inside the `if let Some(waker)` branch, so an empty slot leaves the vector
unmasked. -/

/-- State of a shared vector with a fixed array of waker slots
(src/exti.rs lines 14-30). -/
structure MultiVectorState where
  masked : Bool
  slots : List (Option Nat)
  resumes : List Nat
deriving DecidableEq, Repr

/-- The ISR body generated by `multi_interrupt!` (src/exti.rs lines 18-28):
wake every occupied slot in array order, then `NVIC::mask` unconditionally. -/
def multi_isr (s : MultiVectorState) : MultiVectorState :=
  { s with resumes := s.resumes ++ s.slots.filterMap id, masked := true }

/-- C3 counterexample: the single-slot ISR generated by `waker_interrupt!`
fires on an unmasked pending vector whose slot is empty and leaves the vector
unmasked, contradicting the claim that the vector is masked after every
firing regardless of slot occupancy. -/
theorem waker_isr_empty_slot_leaves_unmasked :
    step 0 ⟨6, false, true, true, none, []⟩ .isrFire
        = some ⟨6, false, true, true, none, []⟩
    ∧ (⟨6, false, true, true, none, []⟩ : NvicState).masked = false := by
  decide

/-- C3 amended: the shared-vector ISR masks the vector after every firing
regardless of occupancy; the single-slot ISR masks the vector exactly when
its slot is occupied (an empty slot leaves the state unchanged); and in the
install-cycle transition system the only step that ever clears the mask bit
is the final unmask statement of an install, so a vector masked by an ISR
stays masked until a subsequent install unmasks it. -/
theorem isr_masking_amended :
    (∀ s : MultiVectorState, (multi_isr s).masked = true)
    ∧ (∀ s : NvicState, s.slot = none → waker_isr s = s)
    ∧ (∀ (s : NvicState) (w : Nat), s.slot = some w →
        (waker_isr s).masked = true ∧ (waker_isr s).resumes = s.resumes ++ [w])
    ∧ (∀ (w : Nat) (s s1 : NvicState) (l : Label), step w s l = some s1 →
        s.masked = true → s1.masked = false → l = .installStep ∧ s.pc = 5) := by
  refine ⟨fun s => rfl, ?_, ?_, ?_⟩
  · intro s hnone
    simp [waker_isr, hnone]
  · intro s w hsome
    simp [waker_isr, hsome]
  · intro w s s1 l hstep hm hm1
    cases l with
    | installStep =>
        simp only [step] at hstep
        split at hstep
        · rename_i hlt
          injection hstep with hs1
          subst hs1
          refine ⟨rfl, ?_⟩
          have hm1' : (installEffect w s.pc s).masked = false := hm1
          obtain ⟨pc, masked, pending, flag, slot, resumes⟩ := s
          simp only at hlt hm hm1' ⊢
          subst hm
          interval_cases pc <;>
            simp_all [installEffect, installActions, actionEffect]
        · exact absurd hstep (by simp)
    | hwEvent =>
        simp only [step] at hstep
        injection hstep with hs1
        subst hs1
        have : s.masked = false := hm1
        rw [hm] at this
        exact absurd this (by simp)
    | isrFire =>
        simp only [step] at hstep
        split at hstep
        · rename_i hcond
          simp only [Bool.and_eq_true, Bool.not_eq_true'] at hcond
          rw [hm] at hcond
          exact absurd hcond.1 (by simp)
        · exact absurd hstep (by simp)

/-- Witness for C3's amended theorem at concrete inputs: a shared-vector
firing with one empty and one occupied slot masks the vector; the single-slot
ISR is the identity on an empty slot and masks on an occupied one; and the
step from program counter 5 that clears the mask bit is an install step. -/
theorem isr_masking_amended_witness :
    (multi_isr ⟨false, [none, some 3], []⟩).masked = true
    ∧ waker_isr ⟨6, false, true, true, none, []⟩ = ⟨6, false, true, true, none, []⟩
    ∧ ((waker_isr ⟨6, false, true, true, some 4, [] ⟩).masked = true
        ∧ (waker_isr ⟨6, false, true, true, some 4, []⟩).resumes = [] ++ [4])
    ∧ (Label.installStep = Label.installStep
        ∧ (⟨5, true, false, false, some 2, []⟩ : NvicState).pc = 5) :=
  ⟨isr_masking_amended.1 ⟨false, [none, some 3], []⟩,
    isr_masking_amended.2.1 ⟨6, false, true, true, none, []⟩ rfl,
    isr_masking_amended.2.2.1 ⟨6, false, true, true, some 4, []⟩ 4 rfl,
    isr_masking_amended.2.2.2 2 ⟨5, true, false, false, some 2, []⟩
      ⟨6, false, false, false, some 2, []⟩ .installStep (by decide) (by decide) (by decide)⟩

/-! ## One-shot completion futures (src/serial.rs, src/timer.rs, src/exti.rs)

The DMA transfer abstraction is a type parameter `τ` with an `isDone`
predicate and a `wait` destructor returning the buffer and the payload
peripheral, matching the transfer-handle interface used by serial.rs. -/

/-- Outcome of polling a `TransferFuture` (src/serial.rs lines 44-52):
ready with the transfer result, pending after installing the waker via
`waker_interrupt!`, or a panic. -/
inductive TransferPoll (ρ : Type) where
  | ready (out : ρ)
  | pendingInstalled
  | panicked
deriving DecidableEq, Repr

/-- `TransferFuture::poll` (src/serial.rs lines 44-52).  The state is the
`Option<Transfer>` held by the future: `self.0.as_mut().expect("polled after
completion")` panics on `None`; when the transfer is done the option is taken
(left `None`) and `wait` yields the result; otherwise the waker is installed
and the poll returns pending. -/
def transferFuture_poll {τ ρ : Type} (isDone : τ → Bool) (wait : τ → ρ) :
    Option τ → Option τ × TransferPoll ρ
  | none => (none, .panicked)
  | some t => if isDone t then (none, .ready (wait t)) else (some t, .pendingInstalled)

/-- State of an EXTI pin: its hardware interrupt pending bit, as read by
`check_interrupt` and cleared by `clear_interrupt_pending_bit`. -/
structure PinState where
  intFlag : Bool
deriving DecidableEq, Repr

/-- Outcome of polling an `AsyncTrigger`. -/
inductive TriggerPoll where
  | ready
  | pendingInstalled
  | panicked
deriving DecidableEq, Repr

/-- `AsyncTrigger::poll` (src/exti.rs lines 106-114): if the pin's interrupt
bit is clear, install the waker via `install_multi_interrupt_waker!` and
return pending; otherwise clear the bit and return ready. -/
def asyncTrigger_poll (p : PinState) : PinState × TriggerPoll :=
  if !p.intFlag then (p, .pendingInstalled)
  else ({ intFlag := false }, .ready)

/-- The non-blocking result type of the timer's `wait` (the `nb` crate):
done, would-block, or a peripheral error of type `ε`.  The countdown timer's
error type is `Void`, embedded as `Empty`. -/
inductive NbResult (ε α : Type) where
  | ok (a : α)
  | wouldBlock
  | other (e : ε)

/-- Outcome of polling a `Delay`. -/
inductive DelayPoll where
  | ready
  | pendingInstalled
deriving DecidableEq, Repr

/-- `Delay::poll` (src/timer.rs lines 95-106): match on `wait()`; `Ok` is
ready, `Err(Other(err))` is `void::unreachable(err)` (the error type is
uninhabited, so this branch aborts control flow by eliminating `Empty`), and
`Err(WouldBlock)` installs the waker via `waker_interrupt!` and returns
pending. -/
def delay_poll : NbResult Empty Unit → DelayPoll
  | .ok _ => .ready
  | .other e => e.elim
  | .wouldBlock => .pendingInstalled

/-- C4 counterexample: the pin-edge future returns ready (clearing the
hardware bit), and the very next poll returns pending after re-installing the
waker — not the fatal contract-violation condition the claim requires for
every one-shot completion future. -/
theorem trigger_poll_after_ready_is_pending :
    (asyncTrigger_poll ⟨true⟩).2 = .ready
    ∧ asyncTrigger_poll (asyncTrigger_poll ⟨true⟩).1 = (⟨false⟩, .pendingInstalled)
    ∧ (asyncTrigger_poll (asyncTrigger_poll ⟨true⟩).1).2 ≠ .panicked := by
  decide

/-- C4 amended: only the DMA transfer future signals the fatal condition when
polled after completion (its slot is `None`, so the `expect` panics, and a
ready poll leaves the slot `None`); the pin-edge future polled after a ready
poll returns pending again (it re-installs the waker), and the timer delay
future returns pending whenever the countdown has not expired — neither
tracks completion, so neither panics after ready. -/
theorem poll_after_completion_amended {τ ρ : Type} (isDone : τ → Bool) (wait : τ → ρ) :
    transferFuture_poll isDone wait none = (none, .panicked)
    ∧ (∀ t : τ, isDone t = true →
        transferFuture_poll isDone wait (transferFuture_poll isDone wait (some t)).1
          = (none, .panicked))
    ∧ (∀ p : PinState, (asyncTrigger_poll p).2 = .ready →
        (asyncTrigger_poll (asyncTrigger_poll p).1).2 = .pendingInstalled)
    ∧ delay_poll .wouldBlock = .pendingInstalled := by
  refine ⟨rfl, ?_, ?_, rfl⟩
  · intro t ht
    simp [transferFuture_poll, ht]
  · intro p hp
    rcases p with ⟨f⟩
    cases f with
    | false => simp [asyncTrigger_poll] at hp
    | true => simp [asyncTrigger_poll]

/-- Witness for C4's amended theorem at concrete inputs. -/
theorem poll_after_completion_amended_witness :
    transferFuture_poll (fun b : Bool => b) (fun _ => (0 : Nat)) none = (none, .panicked)
    ∧ ((fun b : Bool => b) true = true
        ∧ transferFuture_poll (fun b : Bool => b) (fun _ => (0 : Nat))
            (transferFuture_poll (fun b : Bool => b) (fun _ => (0 : Nat)) (some true)).1
          = (none, .panicked))
    ∧ ((asyncTrigger_poll ⟨true⟩).2 = .ready
        ∧ (asyncTrigger_poll (asyncTrigger_poll ⟨true⟩).1).2 = .pendingInstalled)
    ∧ delay_poll .wouldBlock = .pendingInstalled :=
  ⟨(poll_after_completion_amended (fun b : Bool => b) (fun _ => (0 : Nat))).1,
    ⟨rfl, (poll_after_completion_amended (fun b : Bool => b) (fun _ => (0 : Nat))).2.1
      true rfl⟩,
    ⟨by decide, (poll_after_completion_amended (fun b : Bool => b) (fun _ => (0 : Nat))).2.2.1
      ⟨true⟩ (by decide)⟩,
    (poll_after_completion_amended (fun b : Bool => b) (fun _ => (0 : Nat))).2.2.2⟩

/-- C9: the hardware-error branch of the timer's wait result is unreachable —
every possible wait result is either done (poll returns ready) or would-block
(poll installs the waker and returns pending); no input reaches the
`Err(Other(err))` branch, whose body eliminates the uninhabited error type,
and no error is ever surfaced as a normal value or silently ignored. -/
theorem delay_error_branch_unreachable :
    ∀ r : NbResult Empty Unit,
      (r = .ok () ∧ delay_poll r = .ready)
      ∨ (r = .wouldBlock ∧ delay_poll r = .pendingInstalled) := by
  intro r
  cases r with
  | ok a => cases a; exact Or.inl ⟨rfl, rfl⟩
  | wouldBlock => exact Or.inr ⟨rfl, rfl⟩
  | other e => exact e.elim

/-! ## Input stream over the circular double-buffer (src/serial.rs lines 183-271)

The `CircBuffer` peripheral is an external collaborator: a poll observes
either a DMA error or the contents and identity of the half that is currently
not being written.  That observation is passed to `poll_next` as its `peek`
argument; the closure logic applied inside `peek`, and everything after it,
is the crate's own code. -/

/-- The two halves of the circular buffer (`stm32f1xx_hal::dma::Half`). -/
inductive Half where
  | first
  | second
deriving DecidableEq, Repr

/-- A DMA error as reported through `CircBuffer::peek` (`dma::Error`). -/
inductive DmaError where
  | overrun
deriving DecidableEq, Repr

/-- The stream state (src/serial.rs lines 184-190): the marker of the last
half delivered to the consumer.  The circular buffer itself is external. -/
structure RxStream (β : Type) where
  lastReadHalf : Half
deriving DecidableEq, Repr

/-- Outcome of polling a stream: ready with an optional item (the Rust
`Poll<Option<Item>>`, where `ready none` is end-of-stream), or pending after
installing the waker. -/
inductive StreamPoll (ι : Type) where
  | ready (item : Option ι)
  | pendingInstalled
deriving DecidableEq, Repr

/-- The closure passed to `CircBuffer::peek` in `RxStream::poll_next`
(src/serial.rs lines 228-234): deliver the readable half's contents exactly
when it differs from the last-delivered marker. -/
def rx_peek_closure {β : Type} (lastReadHalf : Half) (buf : β) (half : Half) :
    Option (β × Half) :=
  if half = lastReadHalf then none else some (buf, half)

/-- `RxStream::poll_next` (src/serial.rs lines 226-247).  `peek` is the
external circular buffer's observation: an error, or the contents and
identity of the readable half.  On `Ok(Some(..))` the marker advances and the
item is ready; on `Ok(None)` the waker is installed via `waker_interrupt!`
and the poll is pending; on `Err` the error becomes the ready item. -/
def poll_next {β : Type} (s : RxStream β) (peek : Except DmaError (β × Half)) :
    RxStream β × StreamPoll (Except DmaError β) :=
  match peek with
  | .error err => (s, .ready (some (.error err)))
  | .ok (buf, half) =>
      match rx_peek_closure s.lastReadHalf buf half with
      | some (b, h) => ({ lastReadHalf := h }, .ready (some (.ok b)))
      | none => (s, .pendingInstalled)

/-- `RxStream::new` (src/serial.rs lines 202-212): the last-read-half marker
starts at `Half::Second`. -/
def RxStream.new {β : Type} : RxStream β :=
  { lastReadHalf := .second }

/-- `FusedStream::is_terminated` for `RxStream` (src/serial.rs
lines 259-261): constantly `false`. -/
def RxStream.is_terminated {β : Type} (_ : RxStream β) : Bool :=
  false

/-- Which half of the circular buffer is readable (not being written) after
`k` halves have completed, modelling the external continuous circular DMA of
the hal: the transfer fills the first half first, and while half `k % 2` is
being written the other half is the readable one, so before any half has
completed (`k = 0`) the readable half is the never-written second half. -/
def readableHalf (k : Nat) : Half :=
  if k % 2 = 0 then .second else .first

/-- C5: when the readable half differs from the last-delivered marker,
`poll_next` returns ready with that half's contents and moves the marker to
that half; when it equals the marker, `poll_next` installs the waker, returns
pending, and leaves the marker unchanged; consequently a just-delivered half
cannot be delivered again on the next poll, so delivered halves alternate. -/
theorem rx_poll_next_delivery {β : Type} (s : RxStream β) (buf : β) (half : Half) :
    (half ≠ s.lastReadHalf →
      poll_next s (.ok (buf, half)) = (⟨half⟩, .ready (some (.ok buf))))
    ∧ (half = s.lastReadHalf → poll_next s (.ok (buf, half)) = (s, .pendingInstalled))
    ∧ (∀ buf2 : β, half ≠ s.lastReadHalf →
        (poll_next (poll_next s (.ok (buf, half))).1 (.ok (buf2, half))).2
          = .pendingInstalled) := by
  refine ⟨?_, ?_, ?_⟩
  · intro hne
    simp [poll_next, rx_peek_closure, hne]
  · intro heq
    simp [poll_next, rx_peek_closure, heq]
  · intro buf2 hne
    simp [poll_next, rx_peek_closure, hne]

/-- Witness for C5 at concrete inputs. -/
theorem rx_poll_next_delivery_witness :
    (Half.first ≠ (RxStream.new : RxStream Nat).lastReadHalf
      ∧ poll_next (RxStream.new : RxStream Nat) (.ok (3, .first))
          = (⟨.first⟩, .ready (some (.ok 3))))
    ∧ (Half.second = (RxStream.new : RxStream Nat).lastReadHalf
      ∧ poll_next (RxStream.new : RxStream Nat) (.ok (4, .second))
          = (RxStream.new, .pendingInstalled))
    ∧ (poll_next (poll_next (RxStream.new : RxStream Nat) (.ok (3, .first))).1
          (.ok (5, .first))).2 = .pendingInstalled :=
  ⟨⟨by decide, (rx_poll_next_delivery RxStream.new 3 .first).1 (by decide)⟩,
    ⟨by decide, (rx_poll_next_delivery RxStream.new 4 .second).2.1 (by decide)⟩,
    (rx_poll_next_delivery RxStream.new 3 .first).2.2 5 (by decide)⟩

/-- C8: a hardware-reported DMA error makes `poll_next` return a ready error
item without touching the marker (no retry is attempted), the stream never
returns the end-of-stream value `ready none` on any input, and
`is_terminated` is constantly false, so the sequence never silently stops. -/
theorem rx_error_item {β : Type} (s : RxStream β) (e : DmaError)
    (pk : Except DmaError (β × Half)) :
    poll_next s (.error e) = (s, .ready (some (.error e)))
    ∧ (poll_next s pk).2 ≠ .ready none
    ∧ s.is_terminated = false := by
  refine ⟨rfl, ?_, rfl⟩
  rcases pk with e2 | ⟨buf, half⟩
  · simp [poll_next]
  · by_cases h : half = s.lastReadHalf <;>
      simp [poll_next, rx_peek_closure, h]

/-- C10: a freshly constructed stream has its marker at the second half; while
no half has completed yet (the readable half is still the never-written second
half) a poll installs the waker and returns pending, delivering nothing; and
any poll of the fresh stream that does deliver data delivers the first half. -/
theorem rx_new_first_delivery_is_first_half {β : Type} (buf : β) (half : Half) (b2 : β) :
    (RxStream.new : RxStream β).lastReadHalf = .second
    ∧ poll_next (RxStream.new : RxStream β) (.ok (b2, readableHalf 0))
        = (RxStream.new, .pendingInstalled)
    ∧ (∀ (item : β) (s1 : RxStream β),
        poll_next (RxStream.new : RxStream β) (.ok (buf, half))
            = (s1, .ready (some (.ok item))) →
        half = .first) := by
  refine ⟨rfl, ?_, ?_⟩
  · simp [poll_next, rx_peek_closure, readableHalf, RxStream.new]
  · intro item s1 hpoll
    cases half with
    | first => rfl
    | second => simp [poll_next, rx_peek_closure, RxStream.new] at hpoll

/-- Witness for C10 at concrete inputs. -/
theorem rx_new_first_delivery_is_first_half_witness :
    (RxStream.new : RxStream Nat).lastReadHalf = .second
    ∧ poll_next (RxStream.new : RxStream Nat) (.ok (2, readableHalf 0))
        = (RxStream.new, .pendingInstalled)
    ∧ (poll_next (RxStream.new : RxStream Nat) (.ok (1, .first))
          = (⟨.first⟩, .ready (some (.ok 1)))
        ∧ Half.first = .first) :=
  ⟨(rx_new_first_delivery_is_first_half (1 : Nat) .first 2).1,
    (rx_new_first_delivery_is_first_half (1 : Nat) .first 2).2.1,
    rfl,
    (rx_new_first_delivery_is_first_half (1 : Nat) .first 2).2.2 1 ⟨.first⟩ rfl⟩

/-! ## Output sink state machine (src/serial.rs lines 76-170)

`TxSink` wraps `Option<TxSinkState>`: ready with the owned buffer and the
payload peripheral, or sending with an in-flight `TransferFuture` (itself an
`Option` of the transfer handle).  The DMA write is abstracted as
`write : π → β → τ`, producing a transfer over the buffer now containing the
item placed by `*buf = item`. -/

/-- `TxSinkState` (src/serial.rs lines 78-86). -/
inductive TxSinkState (β τ π : Type) where
  | ready (buf : β) (tx : π)
  | sending (transfer : Option τ)
deriving DecidableEq, Repr

/-- Outcome of `start_send`. -/
inductive StartSendOut where
  | ok
  | panicked
deriving DecidableEq, Repr

/-- Outcome of the flush/ready/close polls. -/
inductive SinkPoll where
  | readyOk
  | pendingInstalled
  | panicked
deriving DecidableEq, Repr

/-- `TxSink::start_send` (src/serial.rs lines 117-128): `self.0.take()`
followed by `unwrap` panics on `None`; in the ready state the item is written
into the owned buffer, the DMA transfer is started
(`TransferFuture::from_listening(tx.write(buf))`), and the sink transitions
to sending; in the sending state it panics with "started sending before
polled ready". -/
def start_send {β τ π : Type} (write : π → β → τ)
    (s : Option (TxSinkState β τ π)) (item : β) :
    Option (TxSinkState β τ π) × StartSendOut :=
  match s with
  | none => (none, .panicked)
  | some (.ready _ tx) => (some (.sending (some (write tx item))), .ok)
  | some (.sending _) => (none, .panicked)

/-- `TxSink::poll_flush` (src/serial.rs lines 130-141): `unwrap` panics on
`None`; ready is immediately flushed; sending polls the inner
`TransferFuture` and, once it is ready, stores the returned buffer and
peripheral back as the ready state. -/
def poll_flush {β τ π : Type} (isDone : τ → Bool) (wait : τ → β × π)
    (s : Option (TxSinkState β τ π)) :
    Option (TxSinkState β τ π) × SinkPoll :=
  match s with
  | none => (none, .panicked)
  | some (.ready buf tx) => (some (.ready buf tx), .readyOk)
  | some (.sending tf) =>
      match transferFuture_poll isDone wait tf with
      | (tf2, .pendingInstalled) => (some (.sending tf2), .pendingInstalled)
      | (_, .ready (buf, tx)) => (some (.ready buf tx), .readyOk)
      | (_, .panicked) => (none, .panicked)

/-- `TxSink::poll_ready` (src/serial.rs lines 113-115): delegates to
`poll_flush`. -/
def poll_ready {β τ π : Type} (isDone : τ → Bool) (wait : τ → β × π)
    (s : Option (TxSinkState β τ π)) :
    Option (TxSinkState β τ π) × SinkPoll :=
  poll_flush isDone wait s

/-- `TxSink::poll_close` (src/serial.rs lines 143-145): delegates to
`poll_flush`. -/
def poll_close {β τ π : Type} (isDone : τ → Bool) (wait : τ → β × π)
    (s : Option (TxSinkState β τ π)) :
    Option (TxSinkState β τ π) × SinkPoll :=
  poll_flush isDone wait s

/-- C6: `start_send` in the sending state — a second begin-send without an
intervening successful flush — panics; in the ready state it stores the item
in the owned buffer, starts the hardware transfer over it, and transitions
the sink to sending. -/
theorem start_send_contract {β τ π : Type} (write : π → β → τ)
    (item buf : β) (tx : π) (t : Option τ) :
    start_send write (some (.sending t)) item = (none, .panicked)
    ∧ start_send write (some (.ready buf tx)) item
        = (some (.sending (some (write tx item))), .ok) :=
  ⟨rfl, rfl⟩

/-- C7: `poll_close` and `poll_ready` are definitionally the same operation
as `poll_flush` on every state (same result, same final state), and
`poll_flush` returns ready immediately in the idle state and otherwise
follows the in-flight transfer: pending while the hardware is not done,
ready (restoring the idle state with the returned buffer and peripheral)
once it is. -/
theorem close_and_ready_equiv_flush {β τ π : Type} (isDone : τ → Bool)
    (wait : τ → β × π) (s : Option (TxSinkState β τ π)) (buf : β) (tx : π) (t : τ) :
    poll_close isDone wait s = poll_flush isDone wait s
    ∧ poll_ready isDone wait s = poll_flush isDone wait s
    ∧ poll_flush isDone wait (some (.ready buf tx)) = (some (.ready buf tx), .readyOk)
    ∧ (isDone t = false →
        poll_flush isDone wait (some (.sending (some t)))
          = (some (.sending (some t)), .pendingInstalled))
    ∧ (isDone t = true →
        poll_flush isDone wait (some (.sending (some t)))
          = (some (.ready (wait t).1 (wait t).2), .readyOk)) := by
  refine ⟨rfl, rfl, rfl, ?_, ?_⟩
  · intro hnd
    simp [poll_flush, transferFuture_poll, hnd]
  · intro hd
    rcases hw : wait t with ⟨b, p⟩
    simp [poll_flush, transferFuture_poll, hd, hw]

/-- Witness for C7 at concrete inputs. -/
theorem close_and_ready_equiv_flush_witness :
    poll_close (fun b : Bool => b) (fun _ => ((5 : Nat), (9 : Nat)))
        (some (.sending (some false)))
      = poll_flush (fun b : Bool => b) (fun _ => ((5 : Nat), (9 : Nat)))
        (some (.sending (some false)))
    ∧ poll_ready (fun b : Bool => b) (fun _ => ((5 : Nat), (9 : Nat)))
        (some (.sending (some false)))
      = poll_flush (fun b : Bool => b) (fun _ => ((5 : Nat), (9 : Nat)))
        (some (.sending (some false)))
    ∧ poll_flush (fun b : Bool => b) (fun _ => ((5 : Nat), (9 : Nat)))
        (some (.ready 1 2))
      = (some (.ready 1 2), .readyOk)
    ∧ ((fun b : Bool => b) false = false
        ∧ poll_flush (fun b : Bool => b) (fun _ => ((5 : Nat), (9 : Nat)))
            (some (.sending (some false)))
          = (some (.sending (some false)), .pendingInstalled))
    ∧ ((fun b : Bool => b) true = true
        ∧ poll_flush (fun b : Bool => b) (fun _ => ((5 : Nat), (9 : Nat)))
            (some (.sending (some true)))
          = (some (.ready ((fun _ : Bool => ((5 : Nat), (9 : Nat))) true).1
              ((fun _ : Bool => ((5 : Nat), (9 : Nat))) true).2), .readyOk)) :=
  ⟨(close_and_ready_equiv_flush (fun b : Bool => b) (fun _ => ((5 : Nat), (9 : Nat)))
      (some (.sending (some false))) 1 2 false).1,
    (close_and_ready_equiv_flush (fun b : Bool => b) (fun _ => ((5 : Nat), (9 : Nat)))
      (some (.sending (some false))) 1 2 false).2.1,
    (close_and_ready_equiv_flush (fun b : Bool => b) (fun _ => ((5 : Nat), (9 : Nat)))
      (some (.sending (some false))) 1 2 false).2.2.1,
    ⟨rfl, (close_and_ready_equiv_flush (fun b : Bool => b) (fun _ => ((5 : Nat), (9 : Nat)))
      (some (.sending (some false))) 1 2 false).2.2.2.1 rfl⟩,
    ⟨rfl, (close_and_ready_equiv_flush (fun b : Bool => b) (fun _ => ((5 : Nat), (9 : Nat)))
      (some (.sending (some true))) 1 2 true).2.2.2.2 rfl⟩⟩

end AsyncStm32
